import Mathlib

/-!
Verification development for the SLoP log reassembler (Go).

The program reads log lines from stdin, matches each line against a
"first line" (header) regular expression or a continuation policy,
accumulates multi-line records in a single buffer, and hands completed
records to a printing sink that applies a level filter and a substring
filter.

The Go source is embedded shallowly below.  Machine strings become Lean
`String`/`List Char`; the two regular expressions (`firstLineRegexp` and
`continuedRegexp` in `processLogLine`) are compiled by hand into
deterministic scanners.  Each place where Go regexp (leftmost-first,
RE2) backtracking could matter is either implemented with explicit
backtracking (the lazy `.*?` groups) or is noted as deterministic
because the adjacent character classes are disjoint (e.g. `\s+` followed
by a non-space literal).
-/

/-- Character class `\s` of Go regexp (RE2, ASCII): `[\t\n\f\r ]`. -/
def isRegexWS (c : Char) : Bool :=
  c == ' ' || c == '\t' || c == '\n' || c == '\x0c' || c == '\r'

/-- Go `unicode.IsSpace` (used by `strings.Fields` / `strings.TrimSpace`):
tab, newline, vertical tab, form feed, carriage return, space, NEL, NBSP. -/
def goIsSpace (c : Char) : Bool :=
  c == ' ' || c == '\t' || c == '\n' || c == '\x0b' || c == '\x0c' ||
  c == '\r' || c == '\x85' || c == '\xa0'

/-- `begins s pat` holds when `pat` occurs at the very start of `s`
(Go `strings.HasPrefix` on rune lists). -/
def begins : List Char → List Char → Bool
  | _, [] => true
  | [], _ :: _ => false
  | a :: s, b :: t => a == b && begins s t

/-- Go `strings.Contains` on rune lists: `sub` occurs somewhere in `s`. -/
def listContains (s sub : List Char) : Bool :=
  begins s sub ||
    (match s with
     | [] => false
     | _ :: r => listContains r sub)

/-- Go `strings.Contains` on strings. -/
def goContains (s sub : String) : Bool :=
  listContains s.toList sub.toList

/-- Exactly `n` decimal digits (`\d{n}`); returns them and the rest. -/
def takeExactDigits : Nat → List Char → Option (List Char × List Char)
  | 0, s => some ([], s)
  | _ + 1, [] => none
  | n + 1, c :: s =>
    if c.isDigit then
      match takeExactDigits n s with
      | some (d, r) => some (c :: d, r)
      | none => none
    else none

/-- Literal character. -/
def lit (c : Char) : List Char → Option (List Char)
  | x :: r => if x == c then some r else none
  | [] => none

/-- `p+` (one or more) by maximal munch.  Used only where the following
pattern element cannot match a `p` character, so greedy matching with no
backtracking coincides with regexp semantics. -/
def spanGe1 (p : Char → Bool) (s : List Char) : Option (List Char × List Char) :=
  if (s.takeWhile p).isEmpty then none else some (s.takeWhile p, s.dropWhile p)

/-- `\d{1,2}` by maximal munch with a length check.  Every use in the
header pattern is followed by a non-digit literal, so the greedy
two-then-one backtracking of the regexp collapses to requiring the
maximal digit run to have length 1 or 2. -/
def span12 (s : List Char) : Option (List Char × List Char) :=
  if (s.takeWhile Char.isDigit).length == 1 || (s.takeWhile Char.isDigit).length == 2 then
    some (s.takeWhile Char.isDigit, s.dropWhile Char.isDigit)
  else none

/-- Drop trailing `\s` (regexp class) characters. -/
def trimEndWS (s : List Char) : List Char :=
  (s.reverse.dropWhile isRegexWS).reverse

/-- Worker for Go `strings.Fields`: split around runs of `unicode.IsSpace`. -/
def fieldsAux : List Char → List Char → List (List Char)
  | [], acc => if acc.isEmpty then [] else [acc.reverse]
  | c :: r, acc =>
    if goIsSpace c then
      if acc.isEmpty then fieldsAux r [] else acc.reverse :: fieldsAux r []
    else fieldsAux r (c :: acc)

/-- Go `strings.Fields`. -/
def goFields (s : List Char) : List (List Char) := fieldsAux s []

/-- Join with single spaces (Go `strings.Join(fields, " ")`). -/
def joinSp : List (List Char) → List Char
  | [] => []
  | [x] => x
  | x :: y :: xs => x ++ ' ' :: joinSp (y :: xs)

/-- `strings.Join(strings.Fields s, " ")` as used on every submatch. -/
def joinFields (s : List Char) : List Char := joinSp (goFields s)

/-- Go `strings.TrimSpace` on rune lists. -/
def trimSpace (s : List Char) : List Char :=
  ((s.dropWhile goIsSpace).reverse.dropWhile goIsSpace).reverse

/-- The six submatches of `firstLineRegexp`. -/
structure HeaderCaps where
  time : List Char
  level : List Char
  pid : List Char
  thread : List Char
  cls : List Char
  msg : List Char
deriving DecidableEq

/-- Optional zone suffix `(?:Z|[+-]\d{2}:\d{2})?` of the timestamp.
Greedy: the `Z` / offset alternatives are tried before the empty one;
if the offset alternative fails part-way the empty alternative is taken
(the subsequent `\s+` then decides, exactly as the regexp would). -/
def zoneScan (s : List Char) : List Char × List Char :=
  match s with
  | 'Z' :: r => (['Z'], r)
  | c :: r =>
    if c == '+' || c == '-' then
      match takeExactDigits 2 r with
      | some (d1, r1) =>
        match r1 with
        | ':' :: r2 =>
          match takeExactDigits 2 r2 with
          | some (d2, r3) => (c :: (d1 ++ ':' :: d2), r3)
          | none => ([], s)
        | _ => ([], s)
      | none => ([], s)
    else ([], s)
  | [] => ([], [])

/-- `\d{1,2}` immediately followed by the literal `c` (the literal is
consumed). -/
def d2lit (c : Char) (s : List Char) : Option (List Char × List Char) :=
  match span12 s with
  | none => none
  | some (d, r) =>
    match lit c r with
    | none => none
    | some r2 => some (d, r2)

/-- Date part of the `time` group: `\d{4}-\d{1,2}-\d{1,2}` (the day is
followed by the literal `T`, consumed by the caller). -/
def dateScan (s0 : List Char) : Option (List Char × List Char) :=
  match takeExactDigits 4 s0 with
  | none => none
  | some (y, s1) =>
    match lit '-' s1 with
    | none => none
    | some s2 =>
      match d2lit '-' s2 with
      | none => none
      | some (mo, s3) =>
        match span12 s3 with
        | none => none
        | some (dy, s4) => some (y ++ '-' :: mo ++ '-' :: dy, s4)

/-- Clock part of the `time` group: `\d{1,2}:\d{1,2}:\d{1,2}` (the
seconds are followed by `[,.]`, consumed by `fracScan`). -/
def clockScan (s0 : List Char) : Option (List Char × List Char) :=
  match d2lit ':' s0 with
  | none => none
  | some (hh, s1) =>
    match d2lit ':' s1 with
    | none => none
    | some (mi, s2) =>
      match span12 s2 with
      | none => none
      | some (sec, s3) => some (hh ++ ':' :: mi ++ ':' :: sec, s3)

/-- Millisecond and zone part of the `time` group:
`[,.]\d{3}(?:Z|[+-]\d{2}:\d{2})?`. -/
def fracScan : List Char → Option (List Char × List Char)
  | c :: s1 =>
    if c == ',' || c == '.' then
      match takeExactDigits 3 s1 with
      | none => none
      | some (ms, s2) =>
        match zoneScan s2 with
        | (zn, s3) => some (c :: ms ++ zn, s3)
    else none
  | [] => none

/-- The `time` group:
`\d{4}-\d{1,2}-\d{1,2}T\d{1,2}:\d{1,2}:\d{1,2}[,.]\d{3}(?:Z|[+-]\d{2}:\d{2})?`.
Returns the matched text and the rest of the input. -/
def timeScan (s0 : List Char) : Option (List Char × List Char) :=
  match dateScan s0 with
  | none => none
  | some (d, s1) =>
    match lit 'T' s1 with
    | none => none
    | some s2 =>
      match clockScan s2 with
      | none => none
      | some (cl, s3) =>
        match fracScan s3 with
        | none => none
        | some (fr, s4) => some (d ++ 'T' :: cl ++ fr, s4)

/-- After the closing `]` and the required `\s+`, the pattern is
`(?P<class>.*?)\s*:\s*(?P<message>.*)`.  Leftmost-first semantics make
the lazy class group end at the first `:`; the whitespace immediately
before that colon is eaten by `\s*`, so the class is the text before
the first colon with trailing `\s` trimmed.  Because `.` does not match
newline, the trimmed class must be newline-free; if it is not, no later
colon can match either (any later class would contain the same
newline), so the whole attempt fails.  The message is the remaining
text after the colon with leading `\s*` skipped, up to a newline. -/
def colonSplit (racc : List Char) : List Char → Option (List Char × List Char)
  | [] => none
  | ':' :: r =>
    let cls := trimEndWS racc.reverse
    if cls.contains '\n' then none
    else some (cls, (r.dropWhile isRegexWS).takeWhile (fun c => c != '\n'))
  | c :: r => colonSplit (c :: racc) r

/-- Downstream of the thread group's closing `]`: `\s+` then class,
colon, message (see `colonSplit`). -/
def afterBracket (s : List Char) : Option (List Char × List Char) := do
  let (_, s1) ← spanGe1 isRegexWS s
  colonSplit [] s1

/-- The lazy thread group `\[(?P<thread>.*?)\]`: at each `]` first try
to finish the match there; on failure the `]` becomes part of the
thread text (`.` matches `]`).  `.` does not match newline, so hitting
a newline before a successful `]` fails the whole match. -/
def threadLoop (racc : List Char) : List Char → Option (List Char × List Char × List Char)
  | [] => none
  | ']' :: r =>
    match afterBracket r with
    | some (cls, msg) => some (racc.reverse, cls, msg)
    | none => threadLoop (']' :: racc) r
  | c :: r => if c == '\n' then none else threadLoop (c :: racc) r

/-- `firstLineRegexp` of `processLogLine`:
`^(?P<time>…)\s+(?P<level>[A-Z]+)\s+(?P<pid>\d+)\s+---\s+\[(?P<thread>.*?)\]\s+(?P<class>.*?)\s*:\s*(?P<message>.*)`.
Anchored at the start; each inter-field `\s+` is followed by a
character that is not `\s`, so maximal munch is exact. -/
def headerScan (s : List Char) : Option HeaderCaps := do
  let (t, s1) ← timeScan s
  let (_, s2) ← spanGe1 isRegexWS s1
  let (lv, s3) ← spanGe1 Char.isUpper s2
  let (_, s4) ← spanGe1 isRegexWS s3
  let (pid, s5) ← spanGe1 Char.isDigit s4
  let (_, s6) ← spanGe1 isRegexWS s5
  let s7 ← lit '-' s6
  let s8 ← lit '-' s7
  let s9 ← lit '-' s8
  let (_, s10) ← spanGe1 isRegexWS s9
  let s11 ← lit '[' s10
  let (th, cls, msg) ← threadLoop [] s11
  some ⟨t, lv, pid, th, cls, msg⟩

/-- `firstLineRegexp.FindStringSubmatch(line)` as an optional capture
record. -/
def headerMatch (line : String) : Option HeaderCaps :=
  headerScan line.toList

/-- Whether the line matches the header pattern at all. -/
def headerB (line : String) : Bool :=
  (headerMatch line).isSome

/-- Branch `^\s+at\s+.*` of `continuedRegexp`: at least one `\s`, the
literal `at`, then at least one `\s` (then `.*`, which cannot fail). -/
def contBranch1 (s : List Char) : Bool :=
  !(s.takeWhile isRegexWS).isEmpty &&
    (match s.dropWhile isRegexWS with
     | 'a' :: 't' :: c :: _ => isRegexWS c
     | _ => false)

/-- Branch `^\s*Caused by:.*` of `continuedRegexp`. -/
def contBranch2 (s : List Char) : Bool :=
  begins (s.dropWhile isRegexWS) "Caused by:".toList

/-- `continuedRegexp.MatchString(line)` where
`continuedRegexp = ^\s+at\s+.*|^\s*Caused by:.*`. -/
def continuedMatch (line : String) : Bool :=
  contBranch1 line.toList || contBranch2 line.toList

/-- Go `strings.HasPrefix(line, "\t")`. -/
def tabStart (line : String) : Bool :=
  begins line.toList ['\t']

/-- Go `len(line) > 0 && line[0] == ' '` (the first byte of a nonempty
UTF-8 string is the space byte exactly when the first rune is a space). -/
def spaceStart (line : String) : Bool :=
  match line.toList with
  | c :: _ => c == ' '
  | [] => false

/-- Go struct `SpringLogStruct`.  `ParseStatus` takes the values
0 (empty), 1 (first line deserialized), 2 (log appended),
3 (previous line completed); it is modelled as `Nat`. -/
structure SpringLogStruct where
  Time : String
  Level : String
  Pid : String
  Thread : String
  Class : String
  Message : String
  Raw : String
  ParseStatus : Nat
deriving DecidableEq

/-- Go struct `ParserContext` (filter configuration). -/
structure ParserContext where
  Filter : String
  Level : String
  Pretty : Bool
deriving DecidableEq

/-- The record built from a header match (`springLogLine` literal in
`processLogLine`): every submatch is whitespace-normalized with
`strings.Join(strings.Fields(..), " ")` except the message, which is
`strings.TrimSpace`d; `Raw` is the whole line; `ParseStatus = 1`. -/
def mkRecord (m : HeaderCaps) (line : String) : SpringLogStruct :=
  { Time := String.mk (joinFields m.time)
    Level := String.mk (joinFields m.level)
    Pid := String.mk (joinFields m.pid)
    Thread := String.mk (joinFields m.thread)
    Class := String.mk (joinFields m.cls)
    Message := String.mk (trimSpace m.msg)
    Raw := line
    ParseStatus := 1 }

/-- The in-place continuation update of the buffer: `Raw` and `Message`
are extended by a newline plus the line, `ParseStatus` becomes 2. -/
def contUpdate (line : String) (buf : SpringLogStruct) : SpringLogStruct :=
  { buf with
    Raw := buf.Raw ++ "\n" ++ line
    Message := buf.Message ++ "\n" ++ line
    ParseStatus := 2 }

/-- Outer continuation condition of `processLogLine`:
`logObjectBuffer.ParseStatus > 0 && (Level == "ERROR" || Level == "WARN" || continuedRegexp.MatchString(line))`. -/
def contOuter (line : String) (buf : SpringLogStruct) : Bool :=
  decide (buf.ParseStatus > 0) &&
    (buf.Level == "ERROR" || buf.Level == "WARN" || continuedMatch line)

/-- Inner shape condition of `processLogLine`:
`continuedRegexp.MatchString(line) || strings.HasPrefix(line, "\t") || (len(line) > 0 && line[0] == ' ')`. -/
def shapeTest (line : String) : Bool :=
  continuedMatch line || tabStart line || spaceStart line

/-- The full conjunction under which `processLogLine` treats a line as a
continuation: buffer in progress, outer severity/pattern disjunction,
and the shape test. -/
def contCond (line : String) (buf : SpringLogStruct) : Bool :=
  contOuter line buf && shapeTest line

/-- Go `processLogLine(line, &logObjectBuffer)`.  The Go function
returns a pointer (possibly nil) and mutates the buffer through the
pointer argument; here it returns `(returned record?, buffer after the
call)`.  On a header match the buffer's status is bumped to 3 when a
record was in progress and a fresh record is returned; on a
continuation the buffer is extended in place and returned; otherwise
`nil` is returned and the buffer is untouched. -/
def processLogLine (line : String) (buf : SpringLogStruct) :
    Option SpringLogStruct × SpringLogStruct :=
  match headerMatch line with
  | some m =>
    let buf1 := if buf.ParseStatus ≠ 0 then { buf with ParseStatus := 3 } else buf
    (some (mkRecord m line), buf1)
  | none =>
    if contOuter line buf then
      if shapeTest line then
        let buf1 := contUpdate line buf
        (some buf1, buf1)
      else (none, buf)
    else (none, buf)

/-- Observable test for the continuation outcome: the returned record
of a continuation always carries `ParseStatus = 2`, while a header
match always returns a record with `ParseStatus = 1` and the ignored
outcome returns nothing. -/
def isContinuation (p : Option SpringLogStruct × SpringLogStruct) : Bool :=
  match p.1 with
  | some r => r.ParseStatus == 2
  | none => false

/-- The buffer after one loop iteration of `readStdin`: the returned
record if non-nil (`logObjectBuffer = *lineObj`), else the buffer as
mutated by `processLogLine`. -/
def stepBuf (line : String) (buf : SpringLogStruct) : SpringLogStruct :=
  match processLogLine line buf with
  | (some o, _) => o
  | (none, b) => b

/-- The records handed to the sink during one loop iteration: when the
post-call buffer has `ParseStatus == 3`, `printResults` receives
`bufferBeforeProcessing`, the buffer value saved before the call. -/
def stepFlush (line : String) (buf : SpringLogStruct) : List SpringLogStruct :=
  if (processLogLine line buf).2.ParseStatus == 3 then [buf] else []

/-- The scanner loop of `readStdin`: empty lines are skipped
(`continue`), every other line is processed; returns the records
handed to the sink inside the loop, in order, and the final buffer. -/
def scanLoop : List String → SpringLogStruct → List SpringLogStruct × SpringLogStruct
  | [], buf => ([], buf)
  | line :: rest, buf =>
    if line.length == 0 then scanLoop rest buf
    else
      let t := scanLoop rest (stepBuf line buf)
      (stepFlush line buf ++ t.1, t.2)

/-- Go zero value of `SpringLogStruct` (`var logObjectBuffer SpringLogStruct`). -/
def emptyBuf : SpringLogStruct :=
  { Time := "", Level := "", Pid := "", Thread := "", Class := "",
    Message := "", Raw := "", ParseStatus := 0 }

/-- All records handed to the sink by `readStdin` when the scanner
delivers `lines` starting from buffer `buf`: the in-loop flushes
followed by the end-of-input flush, which happens exactly when the
final buffer has `ParseStatus != 0`. -/
def runFrom (lines : List String) (buf : SpringLogStruct) : List SpringLogStruct :=
  (scanLoop lines buf).1 ++
    (if (scanLoop lines buf).2.ParseStatus != 0 then [(scanLoop lines buf).2] else [])

/-- Records handed to the sink by `readStdin` for the given input lines. -/
def readStdinRecords (lines : List String) : List SpringLogStruct :=
  runFrom lines emptyBuf

/-- `readStdin` including its error channel.  `bufio.Scanner` signals
both end of input and a read error by `Scan()` returning false, with
`scanner.Err()` distinguishing them afterwards; `lines` are the lines
delivered before the scan stopped and `readErr` is `scanner.Err()`.
The post-loop flush runs in both cases, and the function returns
`scanner.Err()`.  (`printResults` can only fail through
`json.Marshal`/`json.Indent`, which cannot fail on this struct, so its
error path is not modelled.) -/
def readStdinFull (lines : List String) (readErr : Option String) :
    List SpringLogStruct × Option String :=
  (runFrom lines emptyBuf, readErr)

/-- `main`'s exit behavior: `os.Exit(1)` when `readStdin` returns a
non-nil error, normal exit (0) otherwise. -/
def mainExitCode (lines : List String) (readErr : Option String) : Nat :=
  match (readStdinFull lines readErr).2 with
  | some _ => 1
  | none => 0

/-- Go `checkFilter`: substring test of the content filter against `Raw`. -/
def checkFilter (ctx : ParserContext) (r : SpringLogStruct) : Bool :=
  goContains r.Raw ctx.Filter

/-- Go `checkLevel`: exact equality of `Level` with the level filter. -/
def checkLevel (ctx : ParserContext) (r : SpringLogStruct) : Bool :=
  r.Level == ctx.Level

/-- Whether `printResults` prints the record: mirrors its control flow
(`filterPassed` starts true; a set level filter is checked first with
an early return on failure, then a set content filter; with no level
filter only a set content filter is checked). -/
def printShown (ctx : ParserContext) (r : SpringLogStruct) : Bool :=
  if ctx.Level != "" then
    if checkLevel ctx r then
      if ctx.Filter != "" then checkFilter ctx r else true
    else false
  else
    if ctx.Filter != "" && ctx.Level == "" then checkFilter ctx r else true

/-- Duration formatting of the pretty printer:
`minutes := int(diff.Minutes())`, `seconds := int(diff.Seconds()) % 60`,
`fmt.Sprintf("%d minutes and %d seconds", ..)`.  `diff` is in
nanoseconds; Go's float-to-int conversion truncates toward zero and
`%` takes the dividend's sign, i.e. `Int.tdiv`/`Int.tmod`. -/
def formatMinSec (diff : Int) : String :=
  let minutes := diff.tdiv 60000000000
  let seconds := (diff.tdiv 1000000000).tmod 60
  toString minutes ++ " minutes and " ++ toString seconds ++ " seconds"

/-- The delta computation of `prettyPrintJson` given the outcomes of the
two `parseTime` calls (`time.Parse` is standard-library code and is
passed here as already-computed `Except` outcomes; `Int` is the parsed
instant in nanoseconds).  Returns the `diffString` and the list of
diagnostics logged via `slog.Error`; both parse failures are reported
and the delta string falls back to zero.  The surrounding function
returns `nil` on this path, so no error is produced. -/
def parseOutcomeDiff (pRes tRes : Except String Int) : String × List String :=
  match pRes, tRes with
  | Except.ok p, Except.ok t => (formatMinSec (t - p), [])
  | _, _ =>
    let d1 := match pRes with
      | Except.error _ => ["Error parsing previous timestamp"]
      | _ => []
    let d2 := match tRes with
      | Except.error _ => ["Error parsing current timestamp"]
      | _ => []
    ("0 minutes and 0 seconds", d1 ++ d2)

/-- The delta display of `prettyPrintJson`: computed only when a
previous timestamp exists (`previousTimestamp != ""`), otherwise the
`diffString` stays empty and nothing is parsed or logged. -/
def prettyDiffString (previousTimestamp : String) (pRes tRes : Except String Int) :
    String × List String :=
  if previousTimestamp != "" then parseOutcomeDiff pRes tRes else ("", [])

/-- Whether an `Except` outcome is an error (Go `err != nil`). -/
def exceptIsErr (e : Except String Int) : Bool :=
  match e with
  | Except.error _ => true
  | Except.ok _ => false

/-- First line of a record's `Raw` text (the text before the first
newline separator). -/
def firstLine (s : String) : String :=
  String.mk (s.toList.takeWhile (fun c => c != '\n'))

/-- The line contains no newline (true of every line delivered by the
scanner, which strips line terminators). -/
def noNLb (s : String) : Bool :=
  s.toList.all (fun c => c != '\n')

/-- Scenario A header line of the spec. -/
def hdrInfoLine : String :=
  "2024-01-01T10:00:00.000Z INFO 123 --- [main] com.app.Foo : started"

/-- An ERROR header line. -/
def hdrErrLine : String :=
  "2024-01-01T10:00:01.000Z ERROR 124 --- [main] com.app.Bar : boom"

/-- The accumulator right after the Scenario A header was parsed. -/
def infoBuf : SpringLogStruct :=
  { Time := "2024-01-01T10:00:00.000Z", Level := "INFO", Pid := "123",
    Thread := "main", Class := "com.app.Foo", Message := "started",
    Raw := hdrInfoLine, ParseStatus := 1 }

/-- The accumulator right after an ERROR header was parsed. -/
def errBuf : SpringLogStruct :=
  { Time := "2024-01-01T10:00:01.000Z", Level := "ERROR", Pid := "124",
    Thread := "main", Class := "com.app.Bar", Message := "boom",
    Raw := hdrErrLine, ParseStatus := 1 }

/-- A stack-frame line (matches `continuedRegexp`). -/
def stackLine : String := "\tat com.app.Foo.run(Foo.java:10)"

/-- A tab-indented line that does not match `continuedRegexp`. -/
def tabLine : String := "\tfirst tab line"

/-- Two consecutive header lines. -/
def twoHeaders : List String := [hdrInfoLine, hdrErrLine]

/-- A successful `\d{n+1}` scan begins with a digit. -/
lemma takeExactDigits_succ_digit {n : Nat} {s : List Char} {p : List Char × List Char}
    (h : takeExactDigits (n + 1) s = some p) :
    ∃ c t, s = c :: t ∧ c.isDigit = true := by
  cases s with
  | nil => simp [takeExactDigits] at h
  | cons c t =>
    refine ⟨c, t, rfl, ?_⟩
    cases hc : c.isDigit with
    | true => rfl
    | false => simp [takeExactDigits, hc] at h

/-- `dateScan` fails whenever its leading `\d{4}` fails. -/
lemma dateScan_none_of_digits_none {s : List Char}
    (h : takeExactDigits 4 s = none) : dateScan s = none := by
  unfold dateScan
  rw [h]

/-- `timeScan` fails whenever its leading `\d{4}` fails. -/
lemma timeScan_none_of_digits_none {s : List Char}
    (h : takeExactDigits 4 s = none) : timeScan s = none := by
  unfold timeScan
  rw [dateScan_none_of_digits_none h]

/-- `headerScan` fails whenever `timeScan` fails. -/
lemma headerScan_none_of_timeScan_none {s : List Char}
    (h : timeScan s = none) : headerScan s = none := by
  unfold headerScan
  rw [h]
  rfl

/-- A successful timestamp scan begins with a digit. -/
lemma timeScan_first_digit {s : List Char} {v : List Char × List Char}
    (h : timeScan s = some v) :
    ∃ c t, s = c :: t ∧ c.isDigit = true := by
  cases hd : takeExactDigits 4 s with
  | none => rw [timeScan_none_of_digits_none hd] at h; exact absurd h (by simp)
  | some p => exact takeExactDigits_succ_digit (n := 3) hd

/-- A successful header scan begins with a digit. -/
lemma headerScan_first_digit {s : List Char} {m : HeaderCaps}
    (h : headerScan s = some m) :
    ∃ c t, s = c :: t ∧ c.isDigit = true := by
  cases hd : timeScan s with
  | none => rw [headerScan_none_of_timeScan_none hd] at h; exact absurd h (by simp)
  | some p => exact timeScan_first_digit hd

/-- A digit is `beq`-distinct from any non-digit character. -/
lemma beq_false_of_digit {c d : Char} (h : c.isDigit = true) (hd : d.isDigit = false) :
    (c == d) = false := by
  cases hcd : c == d with
  | false => rfl
  | true =>
    have hc : c = d := eq_of_beq hcd
    rw [hc, hd] at h
    exact absurd h (by simp)

/-- A line whose first character is a digit fails `continuedRegexp`:
both branches need the first character to be whitespace or `C`. -/
lemma contMatch_false_of_digit {line : String} {c : Char} {r : List Char}
    (hl : line.toList = c :: r) (hc : c.isDigit = true) :
    continuedMatch line = false := by
  have hws : isRegexWS c = false := by
    simp only [isRegexWS]
    rw [beq_false_of_digit hc (by decide), beq_false_of_digit hc (by decide),
      beq_false_of_digit hc (by decide), beq_false_of_digit hc (by decide),
      beq_false_of_digit hc (by decide)]
    rfl
  have hC : (c == 'C') = false := beq_false_of_digit hc (by decide)
  have hCB : ("Caused by:".toList) = 'C' :: "aused by:".toList := rfl
  have h1 : contBranch1 line.toList = false := by
    rw [hl]
    simp [contBranch1, List.takeWhile_cons, hws]
  have h2 : contBranch2 line.toList = false := by
    rw [hl]
    simp only [contBranch2, List.dropWhile_cons, hws, Bool.false_eq_true, if_false, hCB,
      begins, hC, Bool.false_and]
  simp only [continuedMatch, Bool.or_eq_false_iff]
  exact ⟨h1, h2⟩

/-- A line whose first character is a digit fails every shape test. -/
lemma shapeTest_false_of_digit {line : String} {c : Char} {r : List Char}
    (hl : line.toList = c :: r) (hc : c.isDigit = true) :
    shapeTest line = false := by
  have h1 := contMatch_false_of_digit hl hc
  have h2 : tabStart line = false := by
    simp only [tabStart, hl, begins, beq_false_of_digit hc (by decide : ('\t' : Char).isDigit = false)]
    rfl
  have h3 : spaceStart line = false := by
    simp only [spaceStart, hl]
    exact beq_false_of_digit hc (by decide)
  simp [shapeTest, h1, h2, h3]

/-- A header-matching line fails every shape test (it starts with a digit). -/
lemma header_shapeTest_false {line : String} {m : HeaderCaps}
    (h : headerMatch line = some m) : shapeTest line = false := by
  obtain ⟨c, t, hl, hc⟩ := headerScan_first_digit h
  exact shapeTest_false_of_digit hl hc

/-- A header-matching line fails `continuedRegexp`. -/
lemma header_contMatch_false {line : String} {m : HeaderCaps}
    (h : headerMatch line = some m) : continuedMatch line = false := by
  obtain ⟨c, t, hl, hc⟩ := headerScan_first_digit h
  exact contMatch_false_of_digit hl hc

/-- `processLogLine` on a header match. -/
lemma processLogLine_header {line : String} {m : HeaderCaps} (buf : SpringLogStruct)
    (hm : headerMatch line = some m) :
    processLogLine line buf =
      (some (mkRecord m line),
        if buf.ParseStatus ≠ 0 then { buf with ParseStatus := 3 } else buf) := by
  simp [processLogLine, hm]

/-- `processLogLine` on a continuation. -/
lemma processLogLine_cont {line : String} {buf : SpringLogStruct}
    (hm : headerMatch line = none) (ho : contOuter line buf = true)
    (hs : shapeTest line = true) :
    processLogLine line buf = (some (contUpdate line buf), contUpdate line buf) := by
  simp [processLogLine, hm, ho, hs]

/-- `processLogLine` on an ignored line. -/
lemma processLogLine_skip {line : String} {buf : SpringLogStruct}
    (hm : headerMatch line = none)
    (h : contOuter line buf = false ∨ shapeTest line = false) :
    processLogLine line buf = (none, buf) := by
  rcases h with h | h
  · simp [processLogLine, hm, h]
  · cases ho : contOuter line buf <;> simp [processLogLine, hm, ho, h]

/-- Claim C1: for every input line and accumulator state, `processLogLine`
treats the line as a continuation exactly when the accumulator is in
progress (`ParseStatus > 0`) AND (its level is ERROR or WARN, OR the line
matches the stack-frame/cause pattern) AND the line passes at least one
shape test (the stack-frame/cause pattern, a leading tab, or a leading
space); any line failing this conjunction and not matching the header
pattern is ignored with no effect on the accumulator. -/
theorem C1_continuation_policy (line : String) (buf : SpringLogStruct) :
    isContinuation (processLogLine line buf) = contCond line buf ∧
    (processLogLine line buf = (none, buf) ∨ headerB line = true ∨
      contCond line buf = true) := by
  cases hm : headerMatch line with
  | some m =>
    have hs := header_shapeTest_false hm
    refine ⟨?_, Or.inr (Or.inl (by simp [headerB, hm]))⟩
    simp [processLogLine, hm, isContinuation, contCond, hs, mkRecord]
  | none =>
    cases ho : contOuter line buf with
    | false =>
      refine ⟨?_, Or.inl (processLogLine_skip hm (Or.inl ho))⟩
      simp [processLogLine, hm, ho, isContinuation, contCond]
    | true =>
      cases hsh : shapeTest line with
      | false =>
        refine ⟨?_, Or.inl (processLogLine_skip hm (Or.inr hsh))⟩
        simp [processLogLine, hm, ho, hsh, isContinuation, contCond]
      | true =>
        refine ⟨?_, Or.inr (Or.inr (by simp [contCond, ho, hsh]))⟩
        simp [processLogLine, hm, ho, hsh, isContinuation, contCond, contUpdate]

/-- Claim C2 (counterexample): an accumulator with level INFO (neither
ERROR nor WARN) does accept a continuation when the line matches the
stack-frame pattern, contradicting the claim that such records never
accept continuation lines. -/
theorem C2_counterexample :
    infoBuf.Level = "INFO" ∧ infoBuf.ParseStatus = 1 ∧
    isContinuation (processLogLine stackLine infoBuf) = true := by
  refine ⟨rfl, rfl, ?_⟩
  decide

/-- Claim C2 (amended): for a record whose level is neither ERROR nor
WARN, a subsequent line is treated as a continuation exactly when it
matches the stack-frame/cause pattern; a line that matches neither the
header pattern nor the stack-frame/cause pattern is ignored with no
effect on the accumulator (in particular Scenario C: an INFO header
followed by a tab-indented non-stack line leaves that line ignored). -/
theorem C2_nonverbose_continuation (line : String) (buf : SpringLogStruct)
    (h0 : buf.ParseStatus ≠ 0) (hE : buf.Level ≠ "ERROR") (hW : buf.Level ≠ "WARN") :
    isContinuation (processLogLine line buf) = continuedMatch line ∧
    (processLogLine line buf = (none, buf) ∨ headerB line = true ∨
      continuedMatch line = true) := by
  have hbE : (buf.Level == "ERROR") = false := beq_eq_false_iff_ne.mpr hE
  have hbW : (buf.Level == "WARN") = false := beq_eq_false_iff_ne.mpr hW
  cases hm : headerMatch line with
  | some m =>
    have hcm := header_contMatch_false hm
    refine ⟨?_, Or.inr (Or.inl (by simp [headerB, hm]))⟩
    simp [processLogLine, hm, isContinuation, mkRecord, hcm]
  | none =>
    cases hcm : continuedMatch line with
    | false =>
      have ho : contOuter line buf = false := by
        simp [contOuter, hbE, hbW, hcm]
      refine ⟨?_, Or.inl (processLogLine_skip hm (Or.inl ho))⟩
      simp [processLogLine, hm, ho, isContinuation, hcm]
    | true =>
      have hp : 0 < buf.ParseStatus := Nat.pos_of_ne_zero h0
      have ho : contOuter line buf = true := by
        simp [contOuter, hbE, hbW, hcm, hp]
      have hsh : shapeTest line = true := by simp [shapeTest, hcm]
      refine ⟨?_, Or.inr (Or.inr rfl)⟩
      simp [processLogLine, hm, ho, hsh, isContinuation, contUpdate, hcm]

/-- Witness for the amended C2 at a concrete INFO record and a concrete
stack-frame line. -/
theorem C2_nonverbose_continuation_witness :
    isContinuation (processLogLine stackLine infoBuf) = continuedMatch stackLine ∧
    (processLogLine stackLine infoBuf = (none, infoBuf) ∨ headerB stackLine = true ∨
      continuedMatch stackLine = true) :=
  C2_nonverbose_continuation stackLine infoBuf (by decide) (by decide) (by decide)

/-- Claim C10: a continuation outcome leaves `Time`, `Level`, `Pid`,
`Thread` and `Class` unchanged; `Raw` and `Message` are each extended by
a newline plus the continuation line verbatim, `ParseStatus` becomes 2
(the appended state), and the returned record is the updated buffer. -/
theorem C10_continuation_frame (line : String) (buf : SpringLogStruct)
    (h : isContinuation (processLogLine line buf) = true) :
    (processLogLine line buf).2.Time = buf.Time ∧
    (processLogLine line buf).2.Level = buf.Level ∧
    (processLogLine line buf).2.Pid = buf.Pid ∧
    (processLogLine line buf).2.Thread = buf.Thread ∧
    (processLogLine line buf).2.Class = buf.Class ∧
    (processLogLine line buf).2.Message = buf.Message ++ "\n" ++ line ∧
    (processLogLine line buf).2.Raw = buf.Raw ++ "\n" ++ line ∧
    (processLogLine line buf).2.ParseStatus = 2 ∧
    (processLogLine line buf).1 = some (processLogLine line buf).2 := by
  cases hm : headerMatch line with
  | some m => simp [isContinuation, processLogLine, hm, mkRecord] at h
  | none =>
    cases ho : contOuter line buf with
    | false => simp [isContinuation, processLogLine, hm, ho] at h
    | true =>
      cases hsh : shapeTest line with
      | false => simp [isContinuation, processLogLine, hm, ho, hsh] at h
      | true => simp [processLogLine, hm, ho, hsh, contUpdate]

/-- Witness for C10 at a concrete ERROR record and a tab-indented line. -/
theorem C10_continuation_frame_witness :
    (processLogLine tabLine errBuf).2.Time = errBuf.Time ∧
    (processLogLine tabLine errBuf).2.Level = errBuf.Level ∧
    (processLogLine tabLine errBuf).2.Pid = errBuf.Pid ∧
    (processLogLine tabLine errBuf).2.Thread = errBuf.Thread ∧
    (processLogLine tabLine errBuf).2.Class = errBuf.Class ∧
    (processLogLine tabLine errBuf).2.Message = errBuf.Message ++ "\n" ++ tabLine ∧
    (processLogLine tabLine errBuf).2.Raw = errBuf.Raw ++ "\n" ++ tabLine ∧
    (processLogLine tabLine errBuf).2.ParseStatus = 2 ∧
    (processLogLine tabLine errBuf).1 = some (processLogLine tabLine errBuf).2 :=
  C10_continuation_frame tabLine errBuf (by decide)

/-- Claim C7: `printResults` shows a record exactly when it passes a set
level filter (case-sensitive full-string equality on `Level`) and a set
content filter (substring match on `Raw`); an unset filter is not
evaluated, and with neither filter set every record is shown. -/
theorem C7_filter_semantics (ctx : ParserContext) (r : SpringLogStruct) :
    printShown ctx r =
      (((ctx.Level == "") || checkLevel ctx r) &&
        ((ctx.Filter == "") || checkFilter ctx r)) := by
  unfold printShown
  by_cases hL : ctx.Level = "" <;> by_cases hF : ctx.Filter = "" <;>
    cases hcl : checkLevel ctx r <;> cases hcf : checkFilter ctx r <;>
      simp [hL, hF, hcl, hcf]

/-- Claim C5 (counterexample): with one in-progress record and a read
error, `readStdin` still hands the record to the sink (one record is
flushed) before propagating the error, contradicting the claim that the
in-progress record is not flushed. -/
theorem C5_counterexample :
    (readStdinFull [hdrErrLine] (some "read failure")).1.length = 1 ∧
    (readStdinFull [hdrErrLine] (some "read failure")).2 = some "read failure" ∧
    mainExitCode [hdrErrLine] (some "read failure") = 1 := by
  refine ⟨?_, rfl, rfl⟩
  decide

/-- Claim C5 (amended): when the input source fails, no further lines
are processed and the error is propagated to the caller, producing a
nonzero exit; however the in-progress record, if any, is still flushed
to the sink by the post-loop flush, identically to end of input. -/
theorem C5_read_error (lines : List String) (err : Option String) :
    (readStdinFull lines err).1 = readStdinRecords lines ∧
    (readStdinFull lines err).2 = err ∧
    mainExitCode lines err = (match err with | some _ => 1 | none => 0) := by
  refine ⟨rfl, rfl, ?_⟩
  cases err <;> rfl

/-- Claim C6: end of input flushes exactly one additional record beyond
the in-loop flushes precisely when the final accumulator state is not
EMPTY (`ParseStatus ≠ 0`); empty input produces zero records. -/
theorem C6_eof_flush (lines : List String) :
    (readStdinRecords lines).length =
      (scanLoop lines emptyBuf).1.length +
        (if (scanLoop lines emptyBuf).2.ParseStatus = 0 then 0 else 1) ∧
    readStdinRecords [] = [] := by
  constructor
  · by_cases h : (scanLoop lines emptyBuf).2.ParseStatus = 0 <;>
      simp [readStdinRecords, runFrom, h]
  · rfl

/-- Inserting an empty line anywhere in the input leaves the scan loop
(both its flushes and its final buffer) unchanged: the loop `continue`s
on zero-length lines. -/
lemma scanLoop_insert_empty :
    ∀ (pre post : List String) (buf : SpringLogStruct),
      scanLoop (pre ++ "" :: post) buf = scanLoop (pre ++ post) buf := by
  intro pre
  induction pre with
  | nil =>
    intro post buf
    simp [scanLoop]
  | cons l pre ih =>
    intro post buf
    cases h : l.length == 0 <;> simp [scanLoop, h, ih]

/-- Claim C8: an empty input line has no effect on the accumulator or on
the records handed to the sink; the scan continues with the remaining
input.  Stated as: deleting an empty line from anywhere in the input
changes neither the scan loop's result nor `readStdin`'s output. -/
theorem C8_empty_lines (pre post : List String) (buf : SpringLogStruct)
    (err : Option String) :
    scanLoop (pre ++ "" :: post) buf = scanLoop (pre ++ post) buf ∧
    readStdinFull (pre ++ "" :: post) err = readStdinFull (pre ++ post) err := by
  refine ⟨scanLoop_insert_empty pre post buf, ?_⟩
  simp [readStdinFull, runFrom, scanLoop_insert_empty]

/-- Claim C9: when the inter-record delta is computed (a previous
timestamp exists) and either timestamp fails to parse, the failure is
reported as a diagnostic, the delta string falls back to
"0 minutes and 0 seconds", and no error is produced (the surrounding
code path returns `nil`, leaving the stream processing and the exit
outcome unaffected). -/
theorem C9_timestamp_fallback (prev : String) (pRes tRes : Except String Int)
    (hprev : prev ≠ "") (hfail : (exceptIsErr pRes || exceptIsErr tRes) = true) :
    (prettyDiffString prev pRes tRes).1 = "0 minutes and 0 seconds" ∧
    (prettyDiffString prev pRes tRes).2 ≠ [] := by
  have hb : (prev != "") = true := bne_iff_ne.mpr hprev
  cases pRes with
  | error e =>
    cases tRes <;> simp [prettyDiffString, hb, parseOutcomeDiff]
  | ok p =>
    cases tRes with
    | error e => simp [prettyDiffString, hb, parseOutcomeDiff]
    | ok t => simp [exceptIsErr] at hfail

/-- Witness for C9 at a concrete unparseable previous timestamp. -/
theorem C9_timestamp_fallback_witness :
    (prettyDiffString "2024-bad-timestamp" (Except.error "parse error") (Except.ok 0)).1 =
      "0 minutes and 0 seconds" ∧
    (prettyDiffString "2024-bad-timestamp" (Except.error "parse error") (Except.ok 0)).2 ≠ [] :=
  C9_timestamp_fallback "2024-bad-timestamp" (Except.error "parse error") (Except.ok 0)
    (by decide) (by decide)

/-- `stepBuf` on a header match replaces the buffer with the new record. -/
lemma stepBuf_header {line : String} {m : HeaderCaps} (buf : SpringLogStruct)
    (hm : headerMatch line = some m) :
    stepBuf line buf = mkRecord m line := by
  simp [stepBuf, processLogLine_header buf hm]

/-- A header match with an in-progress buffer flushes the old buffer. -/
lemma stepFlush_header_pos {line : String} {m : HeaderCaps} {buf : SpringLogStruct}
    (hm : headerMatch line = some m) (h0 : buf.ParseStatus ≠ 0) :
    stepFlush line buf = [buf] := by
  simp [stepFlush, processLogLine_header buf hm, h0]

/-- A header match with an empty buffer flushes nothing. -/
lemma stepFlush_header_zero {line : String} {m : HeaderCaps} {buf : SpringLogStruct}
    (hm : headerMatch line = some m) (h0 : buf.ParseStatus = 0) :
    stepFlush line buf = [] := by
  simp [stepFlush, processLogLine_header buf hm, h0]

/-- `stepBuf` on a continuation extends the buffer in place. -/
lemma stepBuf_cont {line : String} {buf : SpringLogStruct}
    (hm : headerMatch line = none) (ho : contOuter line buf = true)
    (hs : shapeTest line = true) :
    stepBuf line buf = contUpdate line buf := by
  simp [stepBuf, processLogLine_cont hm ho hs]

/-- A continuation flushes nothing (the updated status is 2, not 3). -/
lemma stepFlush_cont {line : String} {buf : SpringLogStruct}
    (hm : headerMatch line = none) (ho : contOuter line buf = true)
    (hs : shapeTest line = true) :
    stepFlush line buf = [] := by
  simp [stepFlush, processLogLine_cont hm ho hs, contUpdate]

/-- An ignored line leaves the buffer unchanged. -/
lemma stepBuf_skip {line : String} {buf : SpringLogStruct}
    (hm : headerMatch line = none)
    (h : contOuter line buf = false ∨ shapeTest line = false) :
    stepBuf line buf = buf := by
  simp [stepBuf, processLogLine_skip hm h]

/-- An ignored line flushes nothing as long as the buffer status is not
already 3 (true of every reachable buffer). -/
lemma stepFlush_skip {line : String} {buf : SpringLogStruct}
    (hm : headerMatch line = none)
    (h : contOuter line buf = false ∨ shapeTest line = false)
    (h3 : buf.ParseStatus ≠ 3) :
    stepFlush line buf = [] := by
  simp [stepFlush, processLogLine_skip hm h, h3]

/-- `runFrom` on the empty input is just the end-of-input flush. -/
lemma runFrom_nil (buf : SpringLogStruct) :
    runFrom [] buf = if buf.ParseStatus != 0 then [buf] else [] := rfl

/-- `runFrom` skips empty lines. -/
lemma runFrom_cons_empty {line : String} (rest : List String) (buf : SpringLogStruct)
    (h : (line.length == 0) = true) :
    runFrom (line :: rest) buf = runFrom rest buf := by
  simp [runFrom, scanLoop, h]

/-- `runFrom` on a nonempty line: current flushes, then the rest from
the stepped buffer. -/
lemma runFrom_cons {line : String} (rest : List String) (buf : SpringLogStruct)
    (h : (line.length == 0) = false) :
    runFrom (line :: rest) buf = stepFlush line buf ++ runFrom rest (stepBuf line buf) := by
  simp [runFrom, scanLoop, h]

/-- A zero-length line matches neither scanner: its character list is
empty and the header scan needs a leading digit. -/
lemma headerB_of_len_zero {line : String} (h : (line.length == 0) = true) :
    headerB line = false := by
  have h0 : line.length = 0 := beq_iff_eq.mp h
  have hnil : line.toList = [] := List.eq_nil_of_length_eq_zero h0
  have hsc0 : headerScan ([] : List Char) = none := by decide
  have hsc : headerMatch line = none := by
    unfold headerMatch
    rw [hnil]
    exact hsc0
  simp [headerB, hsc]

/-- `takeWhile` is blind to anything after the first failing element. -/
lemma takeWhile_append_stop {p : Char → Bool} {y : Char} (hy : p y = false) :
    ∀ (xs ys : List Char), (xs ++ y :: ys).takeWhile p = xs.takeWhile p := by
  intro xs ys
  induction xs with
  | nil => simp [List.takeWhile_cons, hy]
  | cons a l ih => cases hpa : p a <;> simp [List.takeWhile_cons, hpa, ih]

/-- Appending a newline plus more text does not change the first line. -/
lemma firstLine_append_line (a b : String) :
    firstLine (a ++ "\n" ++ b) = firstLine a := by
  unfold firstLine
  have hdata : (a ++ "\n" ++ b).toList = a.toList ++ '\n' :: b.toList := by
    show (a ++ "\n" ++ b).data = a.data ++ '\n' :: b.data
    rw [String.data_append, String.data_append]
    show (a.data ++ ['\n']) ++ b.data = a.data ++ '\n' :: b.data
    rw [List.append_assoc]
    rfl
  rw [hdata, takeWhile_append_stop (by decide)]

/-- `takeWhile` keeps a list all of whose elements satisfy the predicate. -/
lemma takeWhile_all {p : Char → Bool} :
    ∀ {l : List Char}, l.all p = true → l.takeWhile p = l := by
  intro l
  induction l with
  | nil => intro _; rfl
  | cons a t ih =>
    intro h
    rw [List.all_cons, Bool.and_eq_true] at h
    simp [List.takeWhile_cons, h.1, ih h.2]

/-- A newline-free line is its own first line. -/
lemma firstLine_of_noNL {s : String} (h : noNLb s = true) : firstLine s = s := by
  unfold firstLine
  rw [takeWhile_all h]
  rfl

/-- In-order correspondence between flushed records and header lines:
starting from an empty buffer the first lines of the flushed records
are exactly the header-matching input lines; starting from an
in-progress buffer (status 1 or 2) the same holds with the buffer's own
first line in front. -/
lemma scan_first_lines :
    ∀ (lines : List String) (buf : SpringLogStruct),
      lines.all noNLb = true →
      (buf.ParseStatus = 0 →
        (runFrom lines buf).map (fun r => firstLine r.Raw) = lines.filter headerB) ∧
      (buf.ParseStatus = 1 ∨ buf.ParseStatus = 2 →
        (runFrom lines buf).map (fun r => firstLine r.Raw) =
          firstLine buf.Raw :: lines.filter headerB) := by
  intro lines
  induction lines with
  | nil =>
    intro buf _
    constructor
    · intro h0
      simp [runFrom_nil, h0]
    · rintro (h | h) <;> simp [runFrom_nil, h]
  | cons line rest ih =>
    intro buf hall
    rw [List.all_cons, Bool.and_eq_true] at hall
    obtain ⟨hline, hrest⟩ := hall
    cases hlen : (line.length == 0) with
    | true =>
      have hB : headerB line = false := headerB_of_len_zero hlen
      constructor
      · intro h0
        rw [runFrom_cons_empty rest buf hlen, (ih buf hrest).1 h0,
          List.filter_cons, hB]
        simp
      · intro h12
        rw [runFrom_cons_empty rest buf hlen, (ih buf hrest).2 h12,
          List.filter_cons, hB]
        simp
    | false =>
      cases hm : headerMatch line with
      | some m =>
        have hBt : headerB line = true := by simp [headerB, hm]
        have hfl : firstLine line = line := firstLine_of_noNL hline
        constructor
        · intro h0
          rw [runFrom_cons rest buf hlen, stepFlush_header_zero hm h0,
            stepBuf_header buf hm]
          have := (ih (mkRecord m line) hrest).2 (Or.inl rfl)
          rw [List.nil_append, this, List.filter_cons, hBt]
          simp [mkRecord, hfl]
        · intro h12
          have h0 : buf.ParseStatus ≠ 0 := by
            rcases h12 with h | h <;> simp [h]
          rw [runFrom_cons rest buf hlen, stepFlush_header_pos hm h0,
            stepBuf_header buf hm]
          have := (ih (mkRecord m line) hrest).2 (Or.inl rfl)
          rw [List.map_append, this, List.filter_cons, hBt]
          simp [mkRecord, hfl]
      | none =>
        have hBf : headerB line = false := by simp [headerB, hm]
        constructor
        · intro h0
          have ho : contOuter line buf = false := by
            simp [contOuter, h0]
          rw [runFrom_cons rest buf hlen,
            stepFlush_skip hm (Or.inl ho) (by simp [h0]),
            stepBuf_skip hm (Or.inl ho)]
          rw [List.nil_append, (ih buf hrest).1 h0, List.filter_cons, hBf]
          simp
        · intro h12
          have h3 : buf.ParseStatus ≠ 3 := by
            rcases h12 with h | h <;> simp [h]
          cases hoc : contCond line buf with
          | true =>
            rw [contCond, Bool.and_eq_true] at hoc
            rw [runFrom_cons rest buf hlen, stepFlush_cont hm hoc.1 hoc.2,
              stepBuf_cont hm hoc.1 hoc.2]
            have := (ih (contUpdate line buf) hrest).2 (Or.inr rfl)
            rw [List.nil_append, this, List.filter_cons, hBf]
            simp [contUpdate, firstLine_append_line]
          | false =>
            have hor : contOuter line buf = false ∨ shapeTest line = false := by
              rw [contCond, Bool.and_eq_false_iff] at hoc
              exact hoc
            rw [runFrom_cons rest buf hlen, stepFlush_skip hm hor h3,
              stepBuf_skip hm hor]
            rw [List.nil_append, (ih buf hrest).2 h12, List.filter_cons, hBf]
            simp

/-- Claim C3: records are handed to the sink in the exact order their
header lines appeared; every flush caused by a new header precedes the
new record's contribution, and the in-order first lines of the emitted
records are exactly the in-order header-matching input lines — no
header line is dropped or duplicated.  Input lines carry no line
terminator (the scanner strips it), expressed by the `noNLb` hypothesis. -/
theorem C3_ordering (lines : List String) (h : lines.all noNLb = true) :
    (readStdinRecords lines).map (fun r => firstLine r.Raw) = lines.filter headerB :=
  (scan_first_lines lines emptyBuf h).1 rfl

/-- A demo input mixing headers, continuations, ignored junk and a
repeated header. -/
def c3Demo : List String :=
  [hdrErrLine, stackLine, tabLine, hdrInfoLine, "junk line", hdrErrLine]

/-- Witness for C3 on the demo input. -/
theorem C3_ordering_witness :
    (readStdinRecords c3Demo).map (fun r => firstLine r.Raw) = c3Demo.filter headerB :=
  C3_ordering c3Demo (by decide)

/-- Claim C4 (counterexample): two consecutive header lines produce two
records handed to the sink, both carrying `ParseStatus = 1` (STARTED),
not 3 (COMPLETE): the completion mark is written to the accumulator
slot that is immediately overwritten, while the sink receives the
pre-completion snapshot. -/
theorem C4_counterexample :
    (readStdinRecords twoHeaders).map (fun r => r.ParseStatus) = [1, 1] ∧
    ((readStdinRecords twoHeaders).all (fun r => r.ParseStatus == 3)) = false := by
  refine ⟨?_, ?_⟩ <;> decide

/-- Every record handed to the sink carries the status it had before the
completing event: 1 (STARTED) or 2 (CONTINUED), never 0 or 3, starting
from any reachable buffer. -/
lemma scan_status :
    ∀ (lines : List String) (buf : SpringLogStruct),
      buf.ParseStatus = 0 ∨ buf.ParseStatus = 1 ∨ buf.ParseStatus = 2 →
      ∀ r ∈ runFrom lines buf, r.ParseStatus = 1 ∨ r.ParseStatus = 2 := by
  intro lines
  induction lines with
  | nil =>
    intro buf hb r hr
    rw [runFrom_nil] at hr
    by_cases h0 : buf.ParseStatus = 0
    · simp [h0] at hr
    · have hbne : (buf.ParseStatus != 0) = true := bne_iff_ne.mpr h0
      rw [hbne] at hr
      simp at hr
      subst hr
      rcases hb with h | h | h
      · exact absurd h h0
      · exact Or.inl h
      · exact Or.inr h
  | cons line rest ih =>
    intro buf hb r hr
    cases hlen : (line.length == 0) with
    | true =>
      rw [runFrom_cons_empty rest buf hlen] at hr
      exact ih buf hb r hr
    | false =>
      cases hm : headerMatch line with
      | some m =>
        by_cases h0 : buf.ParseStatus = 0
        · rw [runFrom_cons rest buf hlen, stepFlush_header_zero hm h0,
            stepBuf_header buf hm, List.nil_append] at hr
          exact ih (mkRecord m line) (Or.inr (Or.inl rfl)) r hr
        · rw [runFrom_cons rest buf hlen, stepFlush_header_pos hm h0,
            stepBuf_header buf hm] at hr
          rcases List.mem_append.mp hr with hr | hr
          · simp at hr
            subst hr
            rcases hb with h | h | h
            · exact absurd h h0
            · exact Or.inl h
            · exact Or.inr h
          · exact ih (mkRecord m line) (Or.inr (Or.inl rfl)) r hr
      | none =>
        have h3 : buf.ParseStatus ≠ 3 := by
          rcases hb with h | h | h <;> simp [h]
        cases hoc : contCond line buf with
        | true =>
          rw [contCond, Bool.and_eq_true] at hoc
          rw [runFrom_cons rest buf hlen, stepFlush_cont hm hoc.1 hoc.2,
            stepBuf_cont hm hoc.1 hoc.2, List.nil_append] at hr
          exact ih (contUpdate line buf) (Or.inr (Or.inr rfl)) r hr
        | false =>
          have hor : contOuter line buf = false ∨ shapeTest line = false := by
            rw [contCond, Bool.and_eq_false_iff] at hoc
            exact hoc
          rw [runFrom_cons rest buf hlen, stepFlush_skip hm hor h3,
            stepBuf_skip hm hor, List.nil_append] at hr
          exact ih buf hb r hr

/-- Claim C4 (amended): every record handed to the sink carries
`ParseStatus` 1 (STARTED) or 2 (CONTINUED) — never 3 (COMPLETE).  The
completion mark is applied to the accumulator that is then discarded
(mid-stream) or not applied at all (end of input), so the sink always
receives the pre-completion snapshot. -/
theorem C4_flush_status (lines : List String) (r : SpringLogStruct)
    (hr : r ∈ readStdinRecords lines) :
    r.ParseStatus = 1 ∨ r.ParseStatus = 2 :=
  scan_status lines emptyBuf (Or.inl rfl) r hr

/-- Witness for the amended C4: the first record flushed for two
consecutive headers is the INFO record with status 1. -/
theorem C4_flush_status_witness :
    infoBuf ∈ readStdinRecords twoHeaders ∧
    (infoBuf.ParseStatus = 1 ∨ infoBuf.ParseStatus = 2) :=
  ⟨by decide, C4_flush_status twoHeaders infoBuf (by decide)⟩
